import Mathlib

/-!
Shallow embedding of `collector/collector.go` from the frr_exporter repository.

The Go file implements a Prometheus exporter orchestrator: `Exporters.Collect`
increments a process-wide scrape counter, emits a `frr_scrapes_total` sample,
spawns one goroutine per registered `Collector` (each writes its domain
samples, reports its errors, and emits a per-collector up gauge and a
per-collector duration gauge), joins on a `sync.WaitGroup`, drains a buffered
error channel of capacity 1024 via `processErrors`, and finally emits the
global `frr_up` gauge, which is 1 exactly when the error count is strictly
below the number of registered collectors.

Modelling choices:
- One cycle's behaviour of each registered collector is modelled by the data
  its capability calls return during that cycle: `metrics` is the list of
  domain samples its `PromCollector.Collect(ch)` call writes, `errors` is the
  list returned by `CollectErrors()`, `duration` is the elapsed wall time
  measured around the production call (abstract units instead of float
  seconds), and `descs` is what `PromCollector.Describe(ch)` writes.
- The metric channel `ch` is modelled as the list (trace) of events written to
  it; `errCh <- 1` is an explicit `signal` event so that the order of the
  failure signal relative to the emitted samples is visible.  The trace of a
  whole `Collect` call uses the sequential schedule (tasks one after another
  in registration order); the claims proved below only concern per-task order
  and the position of the orchestration-level samples, both of which are
  schedule-independent in the Go code (the counter sample is sent before any
  goroutine is spawned, the global up sample after the join).
- `errCh` is buffered with capacity 1024 and is only drained after
  `wg.Wait()`.  A cycle in which more than 1024 tasks try to signal a failure
  therefore deadlocks: blocked senders keep `wg.Wait()` from returning.  The
  trace of such a cycle is modelled as `none`.
- The two package-level mutable floats `frrTotalScrapeCount` and
  `frrTotalErrorCount` are modelled as an explicit state record with exact
  (`Nat`) arithmetic; the Go code only ever adds 1 to the former and never
  touches the latter.
-/

namespace FrrExporter

/-- A metric sample written to the prometheus channel `ch`.  The first five
constructors are the orchestration-level metrics built from the `frr*` descs
of the Go file; `domain` stands for an (opaque) sample produced by a
collector's own `PromCollector.Collect` call. -/
inductive MetricSample where
  | scrapesTotal (v : Nat)
  | scrapeErrorsTotal (v : Nat)
  | scrapeDuration (collector : String) (seconds : Nat)
  | collectorUp (collector : String) (v : Nat)
  | up (v : Nat)
  | domain (payload : Nat)
  deriving DecidableEq

/-- An observable event of one `Collect` cycle: either a metric sample sent on
`ch`, or a failure signal `errCh <- 1` sent on the error channel. -/
inductive Event where
  | sample (m : MetricSample)
  | signal
  deriving DecidableEq

/-- A metric descriptor sent on the channel of `Describe`.  The five named
constructors are the package-level `prometheus.NewDesc` values; `collectorDesc`
stands for a descriptor written by a collector's own `Describe` call. -/
inductive MetricDesc where
  | scrapesTotalDesc
  | scrapeErrorsTotalDesc
  | scrapeDurationDesc
  | collectorUpDesc
  | upDesc
  | collectorDesc (d : Nat)
  deriving DecidableEq

/-- One registered collector (the Go `Collector` struct), together with the
data its capability calls produce during the cycle under consideration:
`name` is `CLIHelper.Name()`, `metrics` the domain samples written by
`PromCollector.Collect(ch)`, `errors` the result of `Errors.CollectErrors()`,
`duration` the measured elapsed wall time, and `descs` what
`PromCollector.Describe(ch)` writes. -/
structure Collector where
  name : String
  metrics : List Nat
  errors : List String
  duration : Nat
  descs : List Nat
  deriving DecidableEq

/-- The Go `Exporters` struct: a slice of Collectors. -/
structure Exporters where
  Collectors : List Collector
  deriving DecidableEq

/-- The Go `NewExporter` constructor. -/
def NewExporter (collectors : List Collector) : Exporters :=
  ⟨collectors⟩

/-- The two package-level mutable counters of the Go file,
`frrTotalScrapeCount` (a float only ever incremented by 1, hence exact) and
`frrTotalErrorCount` (never written at all). -/
structure ExporterState where
  frrTotalScrapeCount : Nat
  frrTotalErrorCount : Nat
  deriving DecidableEq

/-- Process start: both package-level counters are zero-initialised. -/
def initialState : ExporterState :=
  { frrTotalScrapeCount := 0, frrTotalErrorCount := 0 }

/-- The capacity of the buffered error channel: `errCh := make(chan int, 1024)`. -/
def errChCapacity : Nat := 1024

/-- The trace of events one collector task produces, in the order of the Go
`runCollector` body: first the domain samples written by
`collector.PromCollector.Collect(ch)`, then — after `CollectErrors()` has
returned — either `errCh <- 1` followed by a per-collector up sample of 0 (on
a non-empty error list) or a per-collector up sample of 1 (on an empty one),
and finally the per-collector duration sample, sent in both branches. -/
def runCollector (c : Collector) : List Event :=
  c.metrics.map (fun p => Event.sample (MetricSample.domain p)) ++
    (if c.errors.length > 0 then
      [Event.signal, Event.sample (MetricSample.collectorUp c.name 0)]
    else
      [Event.sample (MetricSample.collectorUp c.name 1)]) ++
    [Event.sample (MetricSample.scrapeDuration c.name c.duration)]

/-- The contents of `errCh` when it is drained: each collector task sends a
single `1` exactly when its error list is non-empty (sequential schedule; the
multiset of signals is schedule-independent). -/
def collectSignals (collectors : List Collector) : List Nat :=
  (collectors.map (fun c => if c.errors.length > 0 then [1] else [])).flatten

/-- The loop body of the Go `processErrors`: receive until the channel is
closed and exhausted, incrementing `errors` once per received value. -/
def processErrorsLoop (errors : Nat) : List Nat → Nat
  | [] => errors
  | _ :: more => processErrorsLoop (errors + 1) more

/-- The Go `processErrors`: drain the closed error channel and return the
number of received signals. -/
def processErrors (errCh : List Nat) : Nat :=
  processErrorsLoop 0 errCh

/-- Number of collectors whose `CollectErrors()` returned a non-empty list in
this cycle (the failing collectors). -/
def countFailing (collectors : List Collector) : Nat :=
  (collectors.filter (fun c => c.errors.length > 0)).length

/-- Lines 90-93 of the Go file: the value of the global `frr_up` gauge,
computed from the drained error count and the number of registered
collectors. -/
def frrUpValue (collectors : List Collector) : Nat :=
  if processErrors (collectSignals collectors) < collectors.length then 1 else 0

/-- The Go `Exporters.Collect`, as a function from the pre-call state to the
post-call state together with the trace of events of the cycle.  The state
component: `frrTotalScrapeCount++` happens first, unconditionally.  The trace
component: the `frr_scrapes_total` sample is sent before any task is spawned,
then the per-task traces (sequential schedule), then — after the join and the
drain — the `frr_up` sample.  When more than `errChCapacity` tasks must
signal a failure the cycle deadlocks at the join and the trace is `none`. -/
def Exporters.Collect (e : Exporters) (s : ExporterState) :
    ExporterState × Option (List Event) :=
  let s' := { s with frrTotalScrapeCount := s.frrTotalScrapeCount + 1 }
  if countFailing e.Collectors ≤ errChCapacity then
    (s', some (Event.sample (MetricSample.scrapesTotal s'.frrTotalScrapeCount) ::
      ((e.Collectors.map runCollector).flatten ++
        [Event.sample (MetricSample.up (frrUpValue e.Collectors))])))
  else
    (s', none)

/-- The Go `Exporters.Describe`: the five fixed orchestration-level
descriptors in source order, then each collector's own descriptors. -/
def Exporters.Describe (e : Exporters) : List MetricDesc :=
  [MetricDesc.scrapesTotalDesc, MetricDesc.scrapeErrorsTotalDesc,
    MetricDesc.upDesc, MetricDesc.scrapeDurationDesc,
    MetricDesc.collectorUpDesc] ++
    (e.Collectors.map (fun c => c.descs.map MetricDesc.collectorDesc)).flatten

/-- State after a sequence of `Collect` invocations starting at process
start. -/
def stateAfterCalls (calls : List Exporters) : ExporterState :=
  calls.foldl (fun s e => (e.Collect s).1) initialState

/-- Recognises a domain sample event. -/
def Event.isDomain : Event → Bool
  | .sample (.domain _) => true
  | _ => false

/-- Recognises a per-collector up-gauge sample event. -/
def Event.isCollectorUp : Event → Bool
  | .sample (.collectorUp _ _) => true
  | _ => false

/-- Recognises a per-collector duration-gauge sample event. -/
def Event.isDuration : Event → Bool
  | .sample (.scrapeDuration _ _) => true
  | _ => false

/-- Recognises a per-collector up or duration sample event. -/
def Event.isUpOrDuration : Event → Bool
  | .sample (.collectorUp _ _) => true
  | .sample (.scrapeDuration _ _) => true
  | _ => false

/-- Recognises the global `frr_up` sample event. -/
def Event.isGlobalUp : Event → Bool
  | .sample (.up _) => true
  | _ => false

/-- Recognises a `frr_scrape_errors_total` sample event. -/
def Event.isScrapeErrors : Event → Bool
  | .sample (.scrapeErrorsTotal _) => true
  | _ => false

/-- A concrete collector with one domain sample and one error, used to
instantiate hypotheses of the claim theorems. -/
def exFailing : Collector :=
  { name := "bgp", metrics := [7], errors := ["vtysh failed"], duration := 3,
    descs := [1] }

/-- A concrete collector with two domain samples and no errors. -/
def exHealthy : Collector :=
  { name := "ospf", metrics := [4, 5], errors := [], duration := 2,
    descs := [] }

/-- The two concrete collectors registered as one exporter, giving a cycle
with one failing and one healthy collector. -/
def exExporter : Exporters :=
  NewExporter [exFailing, exHealthy]

/-- The trace of the first `Collect` cycle of `exExporter` from process
start, written out explicitly. -/
def exTrace : List Event :=
  [Event.sample (MetricSample.scrapesTotal 1),
    Event.sample (MetricSample.domain 7),
    Event.signal,
    Event.sample (MetricSample.collectorUp "bgp" 0),
    Event.sample (MetricSample.scrapeDuration "bgp" 3),
    Event.sample (MetricSample.domain 4),
    Event.sample (MetricSample.domain 5),
    Event.sample (MetricSample.collectorUp "ospf" 1),
    Event.sample (MetricSample.scrapeDuration "ospf" 2),
    Event.sample (MetricSample.up 1)]

/-- A registration of 1025 collectors, exceeding the fixed channel
capacity. -/
def manyCollectors : List Collector :=
  List.replicate 1025
    { name := "c", metrics := [], errors := ["down"], duration := 0,
      descs := [] }

section Lemmas

/-- Draining a channel returns the accumulator plus the number of buffered
values. -/
theorem processErrorsLoop_eq (errCh : List Nat) :
    ∀ acc, processErrorsLoop acc errCh = acc + errCh.length := by
  induction errCh with
  | nil => intro acc; simp [processErrorsLoop]
  | cons v more ih =>
      intro acc
      simp [processErrorsLoop, ih (acc + 1)]
      omega

/-- The drained signal count equals the number of failing collectors. -/
theorem processErrors_collectSignals (collectors : List Collector) :
    processErrors (collectSignals collectors) = countFailing collectors := by
  induction collectors with
  | nil => rfl
  | cons c rest ih =>
      simp only [processErrors, processErrorsLoop_eq, Nat.zero_add] at ih ⊢
      by_cases h : c.errors.length > 0 <;>
        simp [collectSignals, countFailing, List.filter, h] at ih ⊢ <;>
        simp [ih]

/-- Filtering a pure domain-sample list with a predicate that rejects domain
samples yields the empty list. -/
theorem filter_map_domain (p : Event → Bool)
    (hp : ∀ n, p (Event.sample (MetricSample.domain n)) = false) (l : List Nat) :
    (l.map (fun q => Event.sample (MetricSample.domain q))).filter p = [] := by
  induction l with
  | nil => rfl
  | cons a l ih => simp [List.filter, hp, ih]

/-- The up-gauge samples of one collector task: exactly one, labelled with the
collector's name, with value 1 on an empty error list and 0 otherwise. -/
theorem runCollector_filter_collectorUp (c : Collector) :
    (runCollector c).filter Event.isCollectorUp =
      [Event.sample (MetricSample.collectorUp c.name
        (if c.errors = [] then 1 else 0))] := by
  by_cases h : c.errors = []
  · simp [runCollector, List.filter_append, h,
      filter_map_domain Event.isCollectorUp (fun n => rfl), List.filter,
      Event.isCollectorUp]
  · have h' : 0 < c.errors.length := List.length_pos.mpr h
    simp [runCollector, List.filter_append, h, h',
      filter_map_domain Event.isCollectorUp (fun n => rfl), List.filter,
      Event.isCollectorUp]

/-- The duration-gauge samples of one collector task: exactly one, labelled
with the collector's name, emitted in both branches. -/
theorem runCollector_filter_duration (c : Collector) :
    (runCollector c).filter Event.isDuration =
      [Event.sample (MetricSample.scrapeDuration c.name c.duration)] := by
  by_cases h : c.errors = []
  · simp [runCollector, List.filter_append, h,
      filter_map_domain Event.isDuration (fun n => rfl), List.filter,
      Event.isDuration]
  · have h' : 0 < c.errors.length := List.length_pos.mpr h
    simp [runCollector, List.filter_append, h, h',
      filter_map_domain Event.isDuration (fun n => rfl), List.filter,
      Event.isDuration]

/-- No event of a collector task is an orchestration-level sample: neither a
`frr_scrape_errors_total` sample nor the global `frr_up` sample. -/
theorem runCollector_no_orchestration (c : Collector) :
    ∀ ev ∈ runCollector c,
      Event.isScrapeErrors ev = false ∧ Event.isGlobalUp ev = false := by
  intro ev hev
  simp only [runCollector, List.mem_append, List.mem_map] at hev
  rcases hev with (⟨p, _, hev⟩ | hev) | hev
  · subst hev; exact ⟨rfl, rfl⟩
  · split at hev
    · simp only [List.mem_cons, List.not_mem_nil, or_false] at hev
      rcases hev with hev | hev <;> subst hev <;> exact ⟨rfl, rfl⟩
    · simp only [List.mem_cons, List.not_mem_nil, or_false] at hev
      subst hev; exact ⟨rfl, rfl⟩
  · simp only [List.mem_cons, List.not_mem_nil, or_false] at hev
    subst hev; exact ⟨rfl, rfl⟩

/-- Filtering the fan-in of all collector task traces with a predicate that
selects exactly one event per task yields one event per registered
collector. -/
theorem filter_flatten_runCollector_length (p : Event → Bool)
    (hone : ∀ c : Collector, ((runCollector c).filter p).length = 1)
    (cs : List Collector) :
    (((cs.map runCollector).flatten).filter p).length = cs.length := by
  induction cs with
  | nil => rfl
  | cons c rest ih =>
      simp only [List.map_cons, List.flatten_cons, List.filter_append,
        List.length_append, hone c, ih, List.length_cons]
      omega

/-- Filtering the fan-in of all collector task traces with a predicate that
rejects every task event yields the empty list. -/
theorem filter_flatten_runCollector_nil (p : Event → Bool)
    (hnone : ∀ c : Collector, ∀ ev ∈ runCollector c, p ev = false)
    (cs : List Collector) :
    ((cs.map runCollector).flatten).filter p = [] := by
  rw [List.filter_eq_nil_iff]
  intro ev hev
  rw [List.mem_flatten] at hev
  obtain ⟨l, hl, hev⟩ := hev
  rw [List.mem_map] at hl
  obtain ⟨c, _, rfl⟩ := hl
  simp [hnone c ev hev]

/-- Filtering a cycle trace of the shape `x :: (F ++ [u])` with a predicate
rejecting the first and last event keeps exactly the fan-in part. -/
theorem filter_cons_append_single (p : Event → Bool) (x u : Event)
    (F : List Event) (hx : p x = false) (hu : p u = false) :
    (x :: (F ++ [u])).filter p = F.filter p := by
  simp [List.filter_cons, List.filter_append, hx, hu, List.filter]

/-- The state component of `Collect`: the scrape counter is incremented by
exactly 1 and nothing else changes, in both the completing and the
deadlocking case. -/
theorem Collect_fst (e : Exporters) (s : ExporterState) :
    (e.Collect s).1 =
      { s with frrTotalScrapeCount := s.frrTotalScrapeCount + 1 } := by
  unfold Exporters.Collect
  split <;> rfl

/-- Projection form of `Collect_fst` for the scrape counter. -/
theorem Collect_fst_count (e : Exporters) (s : ExporterState) :
    ((e.Collect s).1).frrTotalScrapeCount = s.frrTotalScrapeCount + 1 := by
  rw [Collect_fst]

/-- The trace of a completing `Collect` cycle: the scrape-counter sample,
then the fan-in of the task traces, then the global up sample. -/
theorem Collect_trace (e : Exporters) (s : ExporterState) (tr : List Event)
    (h : (e.Collect s).2 = some tr) :
    tr = Event.sample (MetricSample.scrapesTotal (s.frrTotalScrapeCount + 1)) ::
      ((e.Collectors.map runCollector).flatten ++
        [Event.sample (MetricSample.up (frrUpValue e.Collectors))]) := by
  unfold Exporters.Collect at h
  split at h
  · exact (Option.some.inj h).symm
  · cases h

/-- Folding `Collect` state transitions from any start state adds the number
of calls to the scrape counter. -/
theorem stateAfterCalls_loop (calls : List Exporters) :
    ∀ s : ExporterState,
      (calls.foldl (fun s e => (e.Collect s).1) s).frrTotalScrapeCount =
        s.frrTotalScrapeCount + calls.length := by
  induction calls with
  | nil => intro s; simp
  | cons e rest ih =>
      intro s
      rw [List.foldl_cons, ih ((e.Collect s).1), Collect_fst_count,
        List.length_cons]
      omega

/-- In a trace of the shape `M ++ T`, an event satisfying a predicate that
fails everywhere on `T` is indexed strictly before an event satisfying a
predicate that fails everywhere on `M`. -/
theorem append_ordering (M T : List Event) (p q : Event → Bool)
    (hM : ∀ ev ∈ M, q ev = false) (hT : ∀ ev ∈ T, p ev = false)
    (i j : Nat) (hi : i < (M ++ T).length) (hj : j < (M ++ T).length)
    (hp : p ((M ++ T).get ⟨i, hi⟩) = true)
    (hq : q ((M ++ T).get ⟨j, hj⟩) = true) : i < j := by
  by_contra hij
  push_neg at hij
  have hiM : i < M.length := by
    by_contra hMi
    push_neg at hMi
    have hmem : (M ++ T).get ⟨i, hi⟩ ∈ T := by
      rw [List.get_eq_getElem, List.getElem_append_right hMi]
      exact List.getElem_mem _
    rw [hT _ hmem] at hp
    cases hp
  have hjM : j < M.length := lt_of_le_of_lt hij hiM
  have hmem : (M ++ T).get ⟨j, hj⟩ ∈ M := by
    rw [List.get_eq_getElem, List.getElem_append_left hjM]
    exact List.getElem_mem _
  rw [hM _ hmem] at hq
  cases hq

end Lemmas

/-- C1: the global `frr_up` gauge emitted at the end of a completing cycle is
1 exactly when the number of collectors whose `CollectedErrors()` was
non-empty is strictly below the number of registered collectors, and 0
otherwise; the value is a function of the cycle's outcomes
(`e.Collectors`) alone, not of the pre-call state `s`. -/
theorem global_up_of_cycle (e : Exporters) (s : ExporterState)
    (tr : List Event) (h : (e.Collect s).2 = some tr) :
    tr.getLast? = some (Event.sample (MetricSample.up
      (if countFailing e.Collectors < e.Collectors.length then 1 else 0))) := by
  rw [Collect_trace e s tr h, ← List.cons_append, List.getLast?_concat]
  unfold frrUpValue
  rw [processErrors_collectSignals]

/-- Witness for C1 at a concrete two-collector cycle with one failure. -/
theorem global_up_of_cycle_witness :
    exTrace.getLast? = some (Event.sample (MetricSample.up
      (if countFailing exExporter.Collectors < exExporter.Collectors.length
        then 1 else 0))) :=
  global_up_of_cycle exExporter initialState exTrace (by decide)

/-- C2: in each cycle, a collector whose `CollectErrors()` result is empty
yields the per-collector up sample value 1, and one with a non-empty result
yields value 0 irrespective of how many errors the result holds (the value
only depends on emptiness). -/
theorem collector_up_reflects_errors (c : Collector) :
    (c.errors = [] → (runCollector c).filter Event.isCollectorUp =
      [Event.sample (MetricSample.collectorUp c.name 1)]) ∧
    (c.errors ≠ [] → (runCollector c).filter Event.isCollectorUp =
      [Event.sample (MetricSample.collectorUp c.name 0)]) := by
  constructor <;> intro h <;> rw [runCollector_filter_collectorUp c] <;>
    simp [h]

/-- Witness for C2 at a healthy collector and at a collector with one
error. -/
theorem collector_up_reflects_errors_witness :
    ((runCollector exHealthy).filter Event.isCollectorUp =
      [Event.sample (MetricSample.collectorUp exHealthy.name 1)]) ∧
    ((runCollector exFailing).filter Event.isCollectorUp =
      [Event.sample (MetricSample.collectorUp exFailing.name 0)]) :=
  ⟨(collector_up_reflects_errors exHealthy).1 (by decide),
    (collector_up_reflects_errors exFailing).2 (by decide)⟩

/-- C3: the scrape counter starts at 0 at process start, every `Collect`
call increments it by exactly 1, the incremented value is emitted as the
first sample of the cycle (before any per-collector outcome), the first call
from process start emits `frr_scrapes_total = 1` (the counter after any call
sequence equals the number of calls), and every call strictly increases the
counter, so it never decreases or resets. -/
theorem scrape_counter_monotone :
    initialState.frrTotalScrapeCount = 0 ∧
    (∀ (e : Exporters) (s : ExporterState),
      ((e.Collect s).1).frrTotalScrapeCount = s.frrTotalScrapeCount + 1) ∧
    (∀ (e : Exporters) (s : ExporterState) (tr : List Event),
      (e.Collect s).2 = some tr →
        tr.head? = some (Event.sample
          (MetricSample.scrapesTotal (s.frrTotalScrapeCount + 1)))) ∧
    (∀ calls : List Exporters,
      (stateAfterCalls calls).frrTotalScrapeCount = calls.length) ∧
    (∀ (e : Exporters) (s : ExporterState),
      s.frrTotalScrapeCount < ((e.Collect s).1).frrTotalScrapeCount) := by
  refine ⟨rfl, Collect_fst_count, ?_, ?_, ?_⟩
  · intro e s tr h
    rw [Collect_trace e s tr h]
    rfl
  · intro calls
    simp [stateAfterCalls, stateAfterCalls_loop, initialState]
  · intro e s
    rw [Collect_fst_count]
    omega

/-- Witness for C3: the first cycle of the concrete exporter emits
`frr_scrapes_total = 1` first. -/
theorem scrape_counter_monotone_witness :
    exTrace.head? = some (Event.sample (MetricSample.scrapesTotal
      (initialState.frrTotalScrapeCount + 1))) :=
  scrape_counter_monotone.2.2.1 exExporter initialState exTrace (by decide)

/-- C6: for every completing cycle, draining the error tally returns exactly
the number of collectors whose `CollectErrors()` was non-empty; the tally
holds exactly one signal per failing collector, so no signal is lost and
none is double-counted (and the drain, a total function, terminates). -/
theorem drain_counts_failures (e : Exporters) (s : ExporterState)
    (tr : List Event) (_h : (e.Collect s).2 = some tr) :
    processErrors (collectSignals e.Collectors) =
        countFailing e.Collectors ∧
      (collectSignals e.Collectors).length = countFailing e.Collectors := by
  refine ⟨processErrors_collectSignals e.Collectors, ?_⟩
  have hl := processErrors_collectSignals e.Collectors
  rw [processErrors, processErrorsLoop_eq, Nat.zero_add] at hl
  exact hl

/-- Witness for C6 at the concrete two-collector cycle. -/
theorem drain_counts_failures_witness :
    processErrors (collectSignals exExporter.Collectors) =
        countFailing exExporter.Collectors ∧
      (collectSignals exExporter.Collectors).length =
        countFailing exExporter.Collectors :=
  drain_counts_failures exExporter initialState exTrace (by decide)

/-- C7: with zero registered collectors, `Collect` still increments the
scrape counter by 1 and emits exactly the two orchestration-level samples:
`frr_scrapes_total` with the incremented value, and `frr_up` with value 0. -/
theorem collect_zero_collectors (s : ExporterState) :
    (NewExporter []).Collect s =
      ({ s with frrTotalScrapeCount := s.frrTotalScrapeCount + 1 },
        some [Event.sample (MetricSample.scrapesTotal
            (s.frrTotalScrapeCount + 1)),
          Event.sample (MetricSample.up 0)]) := by
  simp [NewExporter, Exporters.Collect, countFailing, errChCapacity,
    frrUpValue, collectSignals, processErrors, processErrorsLoop]

/-- C4: every registered collector produces per cycle exactly one
per-collector up sample and exactly one duration sample, both labelled with
its name, the duration sample unconditionally (also when the collector
reported errors); the full trace of a completing cycle carries exactly one
up sample and one duration sample per registered collector. -/
theorem per_collector_sample_multiplicity (c : Collector) (e : Exporters)
    (s : ExporterState) (tr : List Event)
    (h : (e.Collect s).2 = some tr) :
    ((runCollector c).filter Event.isCollectorUp).length = 1 ∧
    (∃ v, (runCollector c).filter Event.isCollectorUp =
      [Event.sample (MetricSample.collectorUp c.name v)]) ∧
    (runCollector c).filter Event.isDuration =
      [Event.sample (MetricSample.scrapeDuration c.name c.duration)] ∧
    (tr.filter Event.isCollectorUp).length = e.Collectors.length ∧
    (tr.filter Event.isDuration).length = e.Collectors.length := by
  have hup : ∀ d : Collector,
      ((runCollector d).filter Event.isCollectorUp).length = 1 := by
    intro d; rw [runCollector_filter_collectorUp d]; rfl
  have hdur : ∀ d : Collector,
      ((runCollector d).filter Event.isDuration).length = 1 := by
    intro d; rw [runCollector_filter_duration d]; rfl
  refine ⟨hup c, ⟨_, runCollector_filter_collectorUp c⟩,
    runCollector_filter_duration c, ?_, ?_⟩
  · rw [Collect_trace e s tr h,
      filter_cons_append_single Event.isCollectorUp
        (Event.sample (MetricSample.scrapesTotal (s.frrTotalScrapeCount + 1)))
        (Event.sample (MetricSample.up (frrUpValue e.Collectors)))
        ((e.Collectors.map runCollector).flatten) rfl rfl,
      filter_flatten_runCollector_length Event.isCollectorUp hup]
  · rw [Collect_trace e s tr h,
      filter_cons_append_single Event.isDuration
        (Event.sample (MetricSample.scrapesTotal (s.frrTotalScrapeCount + 1)))
        (Event.sample (MetricSample.up (frrUpValue e.Collectors)))
        ((e.Collectors.map runCollector).flatten) rfl rfl,
      filter_flatten_runCollector_length Event.isDuration hdur]

/-- Witness for C4 at the failing collector of the concrete cycle. -/
theorem per_collector_sample_multiplicity_witness :
    ((runCollector exFailing).filter Event.isCollectorUp).length = 1 ∧
    (runCollector exFailing).filter Event.isDuration =
      [Event.sample (MetricSample.scrapeDuration exFailing.name
        exFailing.duration)] ∧
    (exTrace.filter Event.isCollectorUp).length =
      exExporter.Collectors.length ∧
    (exTrace.filter Event.isDuration).length =
      exExporter.Collectors.length := by
  have h := per_collector_sample_multiplicity exFailing exExporter
    initialState exTrace (by decide)
  exact ⟨h.1, h.2.2.1, h.2.2.2.1, h.2.2.2.2⟩

/-- C5 counterexample: the failure-tally channel is created with the fixed
capacity 1024 (`make(chan int, 1024)`), so with 1025 registered collectors
the capacity is strictly below the number of registered descriptors,
refuting the claim at that input. -/
theorem errCh_capacity_counterexample :
    errChCapacity < (NewExporter manyCollectors).Collectors.length := by
  simp only [NewExporter, manyCollectors, List.length_replicate,
    errChCapacity]
  decide

/-- C5 amended: the failure-tally channel capacity is the fixed constant
1024; whenever at most 1024 collectors are registered the capacity is at
least the number of registered descriptors, and each collector task signals
at most one failure per cycle. -/
theorem errCh_capacity_sufficient (e : Exporters)
    (h : e.Collectors.length ≤ 1024) :
    errChCapacity = 1024 ∧
    e.Collectors.length ≤ errChCapacity ∧
    ∀ c ∈ e.Collectors, (collectSignals [c]).length ≤ 1 := by
  refine ⟨rfl, h, ?_⟩
  intro c _
  by_cases hc : c.errors.length > 0 <;> simp [collectSignals, hc]

/-- Witness for the amended C5 at the concrete two-collector exporter. -/
theorem errCh_capacity_sufficient_witness :
    errChCapacity = 1024 ∧
    exExporter.Collectors.length ≤ errChCapacity ∧
    (collectSignals [exFailing]).length ≤ 1 := by
  have h := errCh_capacity_sufficient exExporter (by decide)
  exact ⟨h.1, h.2.1, h.2.2 exFailing (by decide)⟩

/-- C8: the `frr_scrape_errors_total` metric is declared by `Describe`, but
no sample of it is ever emitted by `Collect`, and its backing counter
`frrTotalErrorCount` starts at 0 and is never updated by any call. -/
theorem scrape_errors_total_reserved :
    (∀ e : Exporters, MetricDesc.scrapeErrorsTotalDesc ∈ e.Describe) ∧
    (∀ (e : Exporters) (s : ExporterState) (tr : List Event),
      (e.Collect s).2 = some tr → tr.filter Event.isScrapeErrors = []) ∧
    (∀ (e : Exporters) (s : ExporterState),
      ((e.Collect s).1).frrTotalErrorCount = s.frrTotalErrorCount) ∧
    initialState.frrTotalErrorCount = 0 := by
  refine ⟨?_, ?_, ?_, rfl⟩
  · intro e
    simp [Exporters.Describe]
  · intro e s tr h
    rw [Collect_trace e s tr h]
    simp [List.filter, Event.isScrapeErrors, List.filter_append,
      filter_flatten_runCollector_nil Event.isScrapeErrors
        (fun c ev hev => (runCollector_no_orchestration c ev hev).1)]
  · intro e s
    rw [Collect_fst]

/-- Witness for C8: the concrete cycle's trace has no
`frr_scrape_errors_total` sample. -/
theorem scrape_errors_total_reserved_witness :
    exTrace.filter Event.isScrapeErrors = [] :=
  scrape_errors_total_reserved.2.1 exExporter initialState exTrace
    (by decide)

/-- C9: within one collector task every domain sample is indexed strictly
before the task's up and duration samples (they are only emitted after the
production call and the error-reporting call are done, and no domain sample
of the task follows them), and on a collector with a non-empty error list
the events after the domain samples are exactly the failure signal, then the
up sample of value 0, then the duration sample — so the signal reaches the
tally before the up sample of 0 is emitted. -/
theorem runCollector_ordering (c : Collector) :
    (∀ (i j : Nat) (hi : i < (runCollector c).length)
      (hj : j < (runCollector c).length),
      Event.isDomain ((runCollector c).get ⟨i, hi⟩) = true →
      Event.isUpOrDuration ((runCollector c).get ⟨j, hj⟩) = true → i < j) ∧
    (c.errors ≠ [] →
      (runCollector c).drop c.metrics.length =
        [Event.signal, Event.sample (MetricSample.collectorUp c.name 0),
          Event.sample (MetricSample.scrapeDuration c.name c.duration)]) := by
  constructor
  · have hassoc : runCollector c =
        c.metrics.map (fun p => Event.sample (MetricSample.domain p)) ++
          ((if c.errors.length > 0 then
              [Event.signal, Event.sample (MetricSample.collectorUp c.name 0)]
            else [Event.sample (MetricSample.collectorUp c.name 1)]) ++
            [Event.sample (MetricSample.scrapeDuration c.name c.duration)]) := by
      rw [runCollector, List.append_assoc]
    have hM : ∀ ev ∈ c.metrics.map
        (fun p => Event.sample (MetricSample.domain p)),
        Event.isUpOrDuration ev = false := by
      intro ev hev
      rw [List.mem_map] at hev
      obtain ⟨p, _, hev⟩ := hev
      subst hev
      rfl
    have hT : ∀ ev ∈ (if c.errors.length > 0 then
          [Event.signal, Event.sample (MetricSample.collectorUp c.name 0)]
        else [Event.sample (MetricSample.collectorUp c.name 1)]) ++
          [Event.sample (MetricSample.scrapeDuration c.name c.duration)],
        Event.isDomain ev = false := by
      by_cases hc : c.errors.length > 0 <;> simp [hc, Event.isDomain]
    rw [hassoc]
    intro i j hi hj hp hq
    exact append_ordering _ _ Event.isDomain Event.isUpOrDuration hM hT
      i j hi hj hp hq
  · intro herr
    have hc : 0 < c.errors.length := List.length_pos.mpr herr
    have hform : runCollector c =
        c.metrics.map (fun p => Event.sample (MetricSample.domain p)) ++
          [Event.signal, Event.sample (MetricSample.collectorUp c.name 0),
            Event.sample (MetricSample.scrapeDuration c.name c.duration)] := by
      rw [runCollector, if_pos hc, List.append_assoc]
      rfl
    rw [hform, show c.metrics.length =
        (c.metrics.map
          (fun p => Event.sample (MetricSample.domain p))).length
      from by simp, List.drop_left]

/-- Witness for C9 at the concrete failing collector, whose task trace is
one domain sample followed by the signal, the up-0 sample and the duration
sample. -/
theorem runCollector_ordering_witness :
    ((0 : Nat) < 3) ∧
    (runCollector exFailing).drop exFailing.metrics.length =
      [Event.signal,
        Event.sample (MetricSample.collectorUp exFailing.name 0),
        Event.sample (MetricSample.scrapeDuration exFailing.name
          exFailing.duration)] := by
  constructor
  · exact (runCollector_ordering exFailing).1 0 3 (by decide) (by decide)
      (by decide) (by decide)
  · exact (runCollector_ordering exFailing).2 (by decide)

/-- C10: in every completing cycle the scrape-counter sample is the first
event of the trace (sent before any task is spawned), the global up sample
is the last event (sent after the join and the drain), and no event of the
trace other than the final one is a global up sample. -/
theorem collect_trace_ordering (e : Exporters) (s : ExporterState)
    (tr : List Event) (h : (e.Collect s).2 = some tr) :
    tr.head? = some (Event.sample
      (MetricSample.scrapesTotal (s.frrTotalScrapeCount + 1))) ∧
    tr.getLast? = some (Event.sample
      (MetricSample.up (frrUpValue e.Collectors))) ∧
    (∀ (i : Nat) (hi : i < tr.length),
      Event.isGlobalUp (tr.get ⟨i, hi⟩) = true → i = tr.length - 1) := by
  have htr := Collect_trace e s tr h
  subst htr
  refine ⟨rfl, ?_, ?_⟩
  · rw [← List.cons_append, List.getLast?_concat]
  · intro i hi hup
    cases i with
    | zero =>
        rw [List.get_eq_getElem, List.getElem_cons_zero] at hup
        cases hup
    | succ n =>
        have hn : n < ((e.Collectors.map runCollector).flatten ++
            [Event.sample (MetricSample.up (frrUpValue e.Collectors))]).length := by
          simpa using Nat.lt_of_succ_lt_succ hi
        have hget : (Event.sample (MetricSample.scrapesTotal
              (s.frrTotalScrapeCount + 1)) ::
            ((e.Collectors.map runCollector).flatten ++
              [Event.sample (MetricSample.up (frrUpValue e.Collectors))])).get
              ⟨n + 1, hi⟩ =
            ((e.Collectors.map runCollector).flatten ++
              [Event.sample (MetricSample.up (frrUpValue e.Collectors))]).get
              ⟨n, hn⟩ := rfl
        rw [hget] at hup
        by_cases hnF : n < ((e.Collectors.map runCollector).flatten).length
        · exfalso
          have hmem : ((e.Collectors.map runCollector).flatten ++
              [Event.sample (MetricSample.up (frrUpValue e.Collectors))]).get
                ⟨n, hn⟩ ∈ (e.Collectors.map runCollector).flatten := by
            rw [List.get_eq_getElem, List.getElem_append_left hnF]
            exact List.getElem_mem _
          rw [List.mem_flatten] at hmem
          obtain ⟨l, hl, hmem⟩ := hmem
          rw [List.mem_map] at hl
          obtain ⟨d, _, hl⟩ := hl
          subst hl
          rw [(runCollector_no_orchestration d _ hmem).2] at hup
          cases hup
        · have hnlen : n = ((e.Collectors.map runCollector).flatten).length := by
            have hn2 : n <
                ((e.Collectors.map runCollector).flatten).length + 1 := by
              simpa using hn
            omega
          subst hnlen
          simp

/-- Witness for C10 at the concrete cycle: its trace of length 10 starts
with the scrape-counter sample, ends with the global up sample, and index 9
is the only global up position. -/
theorem collect_trace_ordering_witness :
    exTrace.head? = some (Event.sample (MetricSample.scrapesTotal
      (initialState.frrTotalScrapeCount + 1))) ∧
    exTrace.getLast? = some (Event.sample
      (MetricSample.up (frrUpValue exExporter.Collectors))) ∧
    (9 : Nat) = exTrace.length - 1 := by
  have h := collect_trace_ordering exExporter initialState exTrace
    (by decide)
  exact ⟨h.1, h.2.1, h.2.2 9 (by decide) (by decide)⟩

end FrrExporter
